import Mathlib

/-!
Verification of the RenderDeck overlay compositing and persistence subsystem.

This file is a shallow embedding of the relevant JavaScript sources:
* `public/js/scenes.js` — class `CustomModelStorage` (save / load / delete
  and import of named "custom model" records over an IndexedDB-backed store
  with a `models` namespace for metadata and a `blobs` namespace for bytes);
* `public/js/main.js` — class `UVEditor` (pointer-driven selection / drag
  state, numeric-field edits via `_setSelected`, clamping in `_onMouseMove`);
* `public/js/utils/TextureCompositor.js` — `createCompositeTexture`
  (base raster + ordered overlay draws on a `COMPOSITE_SIZE` square canvas).

Modelling conventions:
* Percent coordinates, sizes and rotations are rationals (`ℚ`); JS numbers
  at the concrete inputs used here are exact in binary floating point or are
  only compared through the claims' "within epsilon" wording, which exact
  rational equality satisfies.
* The two IndexedDB object stores are total functions `String → Option _`;
  `put` is pointwise update, a missing key reads as `none` (IndexedDB `get`
  resolves `undefined` for an absent key, it does not reject).
* `dataURLToBlob` / `blobToDataURL` (indexedDBStorage.js) are modelled as
  the identity on the payload string: they convert representation without
  changing the bytes.
* A storage `put` may fail with `QuotaExceededError`; this environmental
  choice is an oracle `fails : Nat → Bool` indexed by the number of `put`
  calls the surrounding `try` block has already made. A failing `put`
  mutates nothing; the enclosing `catch` in `saveCustomModel` returns
  `false`, leaving every mutation made before the failure in place.
* `new Date().toISOString()` is an input `now : String`.
* `this.idbAvailable` is modelled as `true` (the claims are about behaviour
  of an available store).
-/

namespace RenderDeck

/-- Percent-space point, `position {x, y}` in the sources. -/
structure Pos where
  x : ℚ
  y : ℚ
deriving DecidableEq

/-- Percent-space extent, `size {w, h}` in the sources. -/
structure Size where
  w : ℚ
  h : ℚ
deriving DecidableEq

/-- One element of `modelData.overlayImages` as passed to
`CustomModelStorage.saveCustomModel` (scenes.js): transform metadata plus an
optional `imageData` data URL.  `none` models a missing / falsy `imageData`
field, for which the save loop writes no blob. -/
structure Overlay where
  name : String
  position : Pos
  size : Size
  rotation : ℚ
  aspectRatio : ℚ
  imageData : Option String
deriving DecidableEq

/-- One element of the persisted `overlayMetadata` array (scenes.js,
`saveCustomModel`): the overlay without its image bytes. -/
structure OverlayMeta where
  name : String
  position : Pos
  size : Size
  rotation : ℚ
  aspectRatio : ℚ
deriving DecidableEq

/-- The metadata document written to the `models` namespace by
`saveCustomModel` (scenes.js). -/
structure Metadata where
  basedOn : String
  customName : String
  materialPreset : String
  materialProperties : String
  createdDate : String
  lastModified : String
  version : Nat
  overlayKeys : List String
  overlayMetadata : List OverlayMeta
deriving DecidableEq

/-- The `modelData` argument of `saveCustomModel`.  `overlayImages` is
`Option`al because the JS code guards `modelData.overlayImages &&
modelData.overlayImages.length > 0` and
`modelData.overlayImages ? ... : []`.  `materialPreset` and
`materialProperties` default to `'Wood'` and the empty object when falsy;
the opaque `materialProperties` object is modelled as a string. -/
structure ModelData where
  basedOn : String
  customName : String
  materialPreset : Option String
  materialProperties : Option String
  overlayImages : Option (List Overlay)
deriving DecidableEq

/-- The persistent store: the `models` and `blobs` object stores of
`renderdeck_db` (indexedDBStorage.js).  Blob payloads are the image byte
strings. -/
structure Store where
  models : String → Option Metadata
  blobs : String → Option String

/-- indexedDBStorage.js `dataURLToBlob`: representation change only, the
payload bytes are preserved. -/
def dataURLToBlob (d : String) : String := d

/-- indexedDBStorage.js `blobToDataURL`: inverse representation change. -/
def blobToDataURL (b : String) : String := b

/-- `IDBStorage.put('blobs', key, value)` as a pointwise store update. -/
def putBlob (s : Store) (key : String) (value : String) : Store :=
  { s with blobs := fun k => if k = key then some value else s.blobs k }

/-- `IDBStorage.put('models', key, value)` as a pointwise store update. -/
def putModel (s : Store) (key : String) (value : Metadata) : Store :=
  { s with models := fun k => if k = key then some value else s.models k }

/-- `IDBStorage.del('blobs', key)`. -/
def delBlob (s : Store) (key : String) : Store :=
  { s with blobs := fun k => if k = key then none else s.blobs k }

/-- `IDBStorage.del('models', key)`. -/
def delModel (s : Store) (key : String) : Store :=
  { s with models := fun k => if k = key then none else s.models k }

/-- The blob key `` `overlay:${name}:${i}` `` of `saveCustomModel`. -/
def overlayKey (name : String) (i : Nat) : String :=
  "overlay:" ++ name ++ ":" ++ Nat.repr i

/-- The per-overlay entry pushed onto `overlayMetadata` by `saveCustomModel`:
name, copied position and size, rotation and aspect ratio, no image bytes. -/
def toMeta (o : Overlay) : OverlayMeta :=
  { name := o.name
    position := o.position
    size := o.size
    rotation := o.rotation
    aspectRatio := o.aspectRatio }

/-- The blob-writing loop of `saveCustomModel` (scenes.js 1320-1332):
iterate the overlays with index `i`; for an overlay with `imageData`,
convert it and `put` it under `overlay:<name>:<i>` and push that key;
an overlay without `imageData` writes nothing and pushes nothing.
`c` counts the `put` calls made so far inside the `try` block; if the
oracle says attempt `c` fails with `QuotaExceededError` the loop aborts,
returning (via `Except.error`) the store as mutated so far. -/
def saveBlobs (fails : Nat → Bool) (name : String) :
    List Overlay → Nat → Nat → Store → List String →
    Except Store (Store × List String × Nat)
  | [], _, c, s, keys => Except.ok (s, keys, c)
  | o :: rest, i, c, s, keys =>
    match o.imageData with
    | some d =>
      if fails c then Except.error s
      else
        saveBlobs fails name rest (i + 1) (c + 1)
          (putBlob s (overlayKey name i) (dataURLToBlob d))
          (keys ++ [overlayKey name i])
    | none => saveBlobs fails name rest (i + 1) c s keys

/-- `CustomModelStorage.saveCustomModel` (scenes.js 1310-1367): write the
overlay blobs first, then build the metadata document and write it to the
`models` namespace last.  Any `QuotaExceededError` is caught and the method
returns `false`, with the store left exactly as mutated up to the failing
`put`.  Returns the resulting store and the method's boolean result. -/
def saveCustomModel (fails : Nat → Bool) (now : String) (s : Store)
    (name : String) (modelData : ModelData) : Store × Bool :=
  match saveBlobs fails name (modelData.overlayImages.getD []) 0 0 s [] with
  | Except.error s1 => (s1, false)
  | Except.ok (s1, overlayKeys, c) =>
    let metadata : Metadata :=
      { basedOn := modelData.basedOn
        customName := modelData.customName
        materialPreset := modelData.materialPreset.getD "Wood"
        materialProperties := modelData.materialProperties.getD "\x7b\x7d"
        createdDate := now
        lastModified := now
        version := 2
        overlayKeys := overlayKeys
        overlayMetadata := (modelData.overlayImages.getD []).map toMeta }
    if fails c then (s1, false)
    else (putModel s1 name metadata, true)

/-- One reconstructed overlay as returned by `loadCustomModel`:
`{ ...metadata.overlayMetadata[i], imageData: dataURL }`. -/
structure LoadedOverlay where
  name : String
  position : Pos
  size : Size
  rotation : ℚ
  aspectRatio : ℚ
  imageData : String
deriving DecidableEq

/-- Spread of a stored `overlayMetadata` entry with the recovered data URL. -/
def mkLoadedOverlay (m : OverlayMeta) (b : String) : LoadedOverlay :=
  { name := m.name
    position := m.position
    size := m.size
    rotation := m.rotation
    aspectRatio := m.aspectRatio
    imageData := blobToDataURL b }

/-- The record object returned by `loadCustomModel`. -/
structure LoadedModel where
  basedOn : String
  customName : String
  materialPreset : String
  materialProperties : String
  createdDate : String
  lastModified : String
  overlayImages : List LoadedOverlay
  version : Nat
deriving DecidableEq

/-- The blob-reading loop of `loadCustomModel` (scenes.js 1386-1405): for
each index `i`, read the blob under `overlayKeys[i]`; if the blob exists and
`overlayMetadata[i]` exists, push the spread entry; otherwise log and
continue with the next index.  Walking both lists in step is exactly the
source's pairing of `overlayKeys[i]` with `overlayMetadata[i]`. -/
def loadOverlays (s : Store) : List String → List OverlayMeta → List LoadedOverlay
  | [], _ => []
  | _ :: _, [] => []
  | k :: ks, m :: ms =>
    match s.blobs k with
    | some b => mkLoadedOverlay m b :: loadOverlays s ks ms
    | none => loadOverlays s ks ms

/-- `CustomModelStorage.loadCustomModel` (scenes.js 1372-1424): read the
metadata document; absent metadata returns `null`; otherwise reconstruct the
overlay list from the referenced blobs, skipping entries whose blob is
missing, and return the record. -/
def loadCustomModel (s : Store) (name : String) : Option LoadedModel :=
  match s.models name with
  | none => none
  | some metadata =>
    some
      { basedOn := metadata.basedOn
        customName := metadata.customName
        materialPreset := metadata.materialPreset
        materialProperties := metadata.materialProperties
        createdDate := metadata.createdDate
        lastModified := metadata.lastModified
        overlayImages := loadOverlays s metadata.overlayKeys metadata.overlayMetadata
        version := metadata.version }

/-- `CustomModelStorage.deleteCustomModel` (scenes.js 1456-1484): read the
metadata; if present, delete every blob it references, then delete the
metadata document. -/
def deleteCustomModel (s : Store) (name : String) : Store × Bool :=
  match s.models name with
  | none => (s, false)
  | some metadata =>
    let s1 := metadata.overlayKeys.foldl (fun st k => delBlob st k) s
    (delModel s1 name, true)

/-- A parsed import file.  `models := none` models a JSON document without a
`models` property. -/
structure ImportDoc where
  models : Option (List (String × ModelData))

/-- The result object of `importCustomModels`.  The JS success object is
`{success, name, count, skipped}` and the failure object `{success, error}`;
fields absent in JS are `none` / `0` here. -/
structure ImportResult where
  success : Bool
  name : Option String
  count : Nat
  skipped : Nat
  error : Option String
deriving DecidableEq

/-- The per-record loop of `importCustomModels` (scenes.js 1591-1612): for
each `[name, modelData]` entry, if a record of that name already loads, ask
`confirm` whether to overwrite; on refusal count a skip and continue; on
consent delete the old record; then attempt `saveCustomModel`, counting a
success and remembering the first imported name.  A save that returns
`false` (e.g. quota failure, caught inside `saveCustomModel`) is counted
neither as imported nor as skipped.  `confirmFn` is the environment's
answer to the blocking `confirm` dialog and `failsFor` the quota oracle for
the save of each name. -/
def importLoop (confirmFn : String → Bool) (failsFor : String → Nat → Bool)
    (now : String) :
    List (String × ModelData) → Store → Nat → Nat → Option String →
    Store × Nat × Nat × Option String
  | [], s, imported, skipped, firstName => (s, imported, skipped, firstName)
  | (name, modelData) :: rest, s, imported, skipped, firstName =>
    if (loadCustomModel s name).isSome && !(confirmFn name) then
      (importLoop confirmFn failsFor now rest s imported (skipped + 1) firstName)
    else
      let s1 := if (loadCustomModel s name).isSome then (deleteCustomModel s name).1 else s
      let r := saveCustomModel (failsFor name) now s1 name modelData
      if r.2 then
        (importLoop confirmFn failsFor now rest r.1 (imported + 1) skipped
          (match firstName with | none => some name | some f => some f))
      else
        (importLoop confirmFn failsFor now rest r.1 imported skipped firstName)

/-- `CustomModelStorage.importCustomModels` (scenes.js 1575-1636): reject a
document without a `models` property; otherwise run the per-record loop and
return `{success: true, name, count, skipped}` when at least one record was
written, else `{success: false, error}`. -/
def importCustomModels (confirmFn : String → Bool)
    (failsFor : String → Nat → Bool) (now : String) (s : Store)
    (doc : ImportDoc) : Store × ImportResult :=
  match doc.models with
  | none =>
    (s, { success := false, name := none, count := 0, skipped := 0
          error := some "Invalid export file format - missing models property" })
  | some entries =>
    let r := importLoop confirmFn failsFor now entries s 0 0 none
    if 0 < r.2.1 then
      (r.1, { success := true, name := r.2.2.2, count := r.2.1
              skipped := r.2.2.1, error := none })
    else
      (r.1, { success := false, name := none, count := 0, skipped := 0
              error := some ("No models imported (" ++ Nat.repr r.2.2.1 ++ " skipped)") })

/-! ### UVEditor (main.js): interaction state and mutation paths -/

/-- One element of `UVEditor.overlayImages` (main.js): an in-editor overlay
with its numeric id (the decoded `image` handle plays no role in the claims
about selection and mutation and is omitted). -/
structure EditorOverlay where
  id : Nat
  name : String
  position : Pos
  size : Size
  rotation : ℚ
deriving DecidableEq

/-- The interaction state of `UVEditor`: the overlay list (z-order, later on
top), the selected id (`null` = `none`), the drag flag and the
pointer-to-center offset captured at drag start. -/
structure EditorState where
  overlayImages : List EditorOverlay
  selectedImageId : Option Nat
  isDragging : Bool
  dragOffset : Pos
deriving DecidableEq

/-- `Math.max(0, Math.min(100, v))`, the clamp used in `_onMouseMove`. -/
def clampPercent (v : ℚ) : ℚ := max 0 (min 100 v)

/-- The position written by `_onMouseMove` (main.js 1190-1191): pointer in
percent space minus the drag offset, clamped into `[0,100]` per component. -/
def dragPosition (ptr off : Pos) : Pos :=
  { x := clampPercent (ptr.x - off.x), y := clampPercent (ptr.y - off.y) }

/-- `UVEditor._onMouseMove` (main.js 1182-1196): only acts while dragging
with a selection; writes the clamped position into the selected overlay and
recomposites. -/
def onMouseMove (st : EditorState) (ptr : Pos) : EditorState :=
  match st.isDragging, st.selectedImageId with
  | true, some sid =>
    match st.overlayImages.find? (fun i => i.id == sid) with
    | some _ =>
      { st with
        overlayImages := st.overlayImages.map fun i =>
          if i.id == sid then { i with position := dragPosition ptr st.dragOffset } else i }
    | none => st
  | _, _ => st

/-- The property cases of the `_setSelected` switch (main.js 713-719). -/
inductive TransformProp
  | posX
  | posY
  | width
  | height
  | rotation
deriving DecidableEq

/-- `UVEditor._setSelected` (main.js 707-722) applied to the found selected
overlay: Tab 2 slider space (`-1..1` position, `0.01-2` size, `0-360`
rotation) is mapped into percent space and written WITHOUT clamping. -/
def setSelected (prop : TransformProp) (value : ℚ) (img : EditorOverlay) :
    EditorOverlay :=
  match prop with
  | TransformProp.posX => { img with position := { img.position with x := (value + 1) / 2 * 100 } }
  | TransformProp.posY => { img with position := { img.position with y := (value + 1) / 2 * 100 } }
  | TransformProp.width => { img with size := { img.size with w := value * 50 } }
  | TransformProp.height => { img with size := { img.size with h := value * 50 } }
  | TransformProp.rotation => { img with rotation := value }

/-- The axis-aligned hit test of `_onMouseDown` (main.js 1171-1173): pointer
within center ± half size, rotation ignored. -/
def hitTest (ptr : Pos) (img : EditorOverlay) : Bool :=
  decide (img.position.x - img.size.w / 2 ≤ ptr.x) &&
  decide (ptr.x ≤ img.position.x + img.size.w / 2) &&
  decide (img.position.y - img.size.h / 2 ≤ ptr.y) &&
  decide (ptr.y ≤ img.position.y + img.size.h / 2)

/-- The downward index loop of `_onMouseDown` (main.js 1169-1179): scan the
overlay list from the last index toward 0 and return the first hit, i.e.
the topmost hit in z-order. -/
def hitScan (ptr : Pos) : List EditorOverlay → Option EditorOverlay
  | [] => none
  | o :: rest =>
    match hitScan ptr rest with
    | some r => some r
    | none => if hitTest ptr o then some o else none

/-- `UVEditor._onMouseDown` (main.js 1163-1180): on the topmost hit, select
it (`selectImage` sets `selectedImageId`), set `isDragging` and capture the
drag offset; a pointer-down that hits nothing changes nothing. -/
def onMouseDown (st : EditorState) (ptr : Pos) : EditorState :=
  match hitScan ptr st.overlayImages with
  | some img =>
    { st with
      selectedImageId := some img.id
      isDragging := true
      dragOffset := { x := ptr.x - img.position.x, y := ptr.y - img.position.y } }
  | none => st

/-- The `mouseup` listener (main.js 674): `this.isDragging = false`. -/
def onMouseUp (st : EditorState) : EditorState := { st with isDragging := false }

/-- The `mouseleave` listener (main.js 675): `this.isDragging = false`. -/
def onMouseLeave (st : EditorState) : EditorState := { st with isDragging := false }

/-! ### TextureCompositor (utils/TextureCompositor.js) -/

/-- `CONFIG.TEXTURE.COMPOSITE_SIZE` (config.js): the square canvas edge. -/
def COMPOSITE_SIZE : ℚ := 2048

/-- An opaque decoded image handle. -/
def Image := String
deriving DecidableEq

/-- One element of the compositor's `overlayImages` argument.  `img` is the
decode result of `overlay.imageData`: `none` models the `onerror` path whose
entry resolves to `null`. -/
structure CompOverlay where
  name : String
  position : Pos
  size : Size
  rotation : ℚ
  img : Option Image

/-- The canvas transform-and-draw of one overlay
(TextureCompositor.js 77-88): translate to the percent-scaled center,
rotate by the rotation in radians, draw the image at
`(-w/2, -h/2, w, h)`. -/
structure DrawOp where
  x : ℚ
  y : ℚ
  w : ℚ
  h : ℚ
  dx : ℚ
  dy : ℚ
  rotPi : ℚ
deriving DecidableEq

/-- The draw parameters computed for one overlay on a `canvasSize`-square
canvas (TextureCompositor.js 77-87; `_renderComposite` in main.js 977-986
computes the same expressions on the 2048-square `textureCanvas`).  The
`ctx.rotate` argument is `(overlay.rotation * Math.PI) / 180` radians;
it is recorded here by its rational coefficient of `π`, i.e. the canvas is
rotated by `rotPi * π` radians. -/
def overlayDrawOp (canvasSize : ℚ) (o : CompOverlay) : DrawOp :=
  { x := o.position.x / 100 * canvasSize
    y := o.position.y / 100 * canvasSize
    w := o.size.w / 100 * canvasSize
    h := o.size.h / 100 * canvasSize
    dx := -(o.size.w / 100 * canvasSize) / 2
    dy := -(o.size.h / 100 * canvasSize) / 2
    rotPi := o.rotation / 180 }

/-- The background paint (TextureCompositor.js 29-40): draw the base image,
or fill with the fixed flat colour `#ffffff` when it is absent. -/
inductive BaseOp
  | drawImage (im : Image)
  | fillColor (c : String)

/-- The compositor's `baseTexture` argument: a texture whose `image` may be
missing (`baseTexture && baseTexture.image` in the source). -/
structure BaseTexture where
  image : Option Image

/-- `imageLoadPromises` (TextureCompositor.js 52-62): each overlay resolves
to `{img, overlay}` on decode success and to `null` on decode failure. -/
def loadedImages (ovs : List CompOverlay) : List (Option (Image × CompOverlay)) :=
  ovs.map fun o => o.img.map fun im => (im, o)

/-- The `forEach` draw loop (TextureCompositor.js 70-89): a `null` entry is
skipped with a warning, a loaded entry contributes one draw, in list
order. -/
def drawLoop : List (Option (Image × CompOverlay)) → List (Image × DrawOp)
  | [] => []
  | none :: rest => drawLoop rest
  | some (im, o) :: rest => (im, overlayDrawOp COMPOSITE_SIZE o) :: drawLoop rest

/-- The sequence of raster operations performed by `createCompositeTexture`:
the background paint followed by the overlay draws. -/
structure CompositeResult where
  base : BaseOp
  draws : List (Image × DrawOp)

/-- `TextureCompositor.createCompositeTexture` (TextureCompositor.js 15-131)
as the raster operations it performs on the `COMPOSITE_SIZE` canvas: paint
the base (white fill if `baseTexture` or its `image` is absent), then, if
`overlayImages` is present, draw every successfully decoded overlay in list
order, skipping failed decodes. -/
def createCompositeTexture (baseTexture : Option BaseTexture)
    (overlayImages : Option (List CompOverlay)) : CompositeResult :=
  { base :=
      match baseTexture with
      | some bt =>
        match bt.image with
        | some im => BaseOp.drawImage im
        | none => BaseOp.fillColor "#ffffff"
      | none => BaseOp.fillColor "#ffffff"
    draws :=
      match overlayImages with
      | none => []
      | some ovs => drawLoop (loadedImages ovs) }

/-! ### Decimal rendering: a fuel-free reformulation of core `Nat.repr`,
used to prove that the blob keys `overlay:<name>:<i>` are distinct for
distinct indices. -/

/-- The store in which a `saveBlobs` run left the database, whether it
completed or aborted on a quota failure. -/
def resultStore : Except Store (Store × List String × Nat) → Store
  | Except.error s => s
  | Except.ok (s, _, _) => s

/-- The keys collected by the blob loop of `saveCustomModel`, described
positionally: starting at index `i`, an overlay with `imageData` contributes
`overlay:<name>:<index>` and one without contributes nothing. -/
def specKeys (name : String) (i : Nat) : List Overlay → List String
  | [] => []
  | o :: rest =>
    match o.imageData with
    | some _ => overlayKey name i :: specKeys name (i + 1) rest
    | none => specKeys name (i + 1) rest

/-- The transform components (position, size, rotation) of an input
overlay, the data C3 compares across a save/load round trip. -/
def overlayTransform (o : Overlay) : Pos × Size × ℚ := (o.position, o.size, o.rotation)

/-- The transform components of a loaded overlay. -/
def loadedTransform (l : LoadedOverlay) : Pos × Size × ℚ := (l.position, l.size, l.rotation)

/-- The transform components of a persisted `overlayMetadata` entry. -/
def metaTransform (m : OverlayMeta) : Pos × Size × ℚ := (m.position, m.size, m.rotation)

/-! ### Concrete instances used by the counterexamples and witnesses -/

/-- C1: the metadata record stored for name "m" before the failing re-save. -/
def metaC1 : Metadata :=
  ⟨"base", "m", "Wood", "\x7b\x7d", "t0", "t0", 2, ["overlay:m:0"],
    [⟨"o", ⟨50, 50⟩, ⟨30, 20⟩, 0, 1⟩]⟩

/-- C1: the store holding the prior record: metadata under "m", image bytes
"A" under its overlay key. -/
def storeC1 : Store :=
  ⟨fun k => if k = "m" then some metaC1 else none,
   fun k => if k = "overlay:m:0" then some "A" else none⟩

/-- C1: the re-save payload whose one overlay carries new image bytes "B". -/
def mdC1 : ModelData :=
  ⟨"base", "m", some "Wood", some "\x7b\x7d",
    some [⟨"o", ⟨50, 50⟩, ⟨30, 20⟩, 0, 1, some "B"⟩]⟩

/-- C2: an overlay selected in the editor. -/
def imgC2 : EditorOverlay := ⟨1, "img", ⟨50, 50⟩, ⟨30, 30⟩, 0⟩

/-- C3: an empty store. -/
def storeC3 : Store := ⟨fun _ => none, fun _ => none⟩

/-- C3: two overlays, both carrying image data. -/
def ovsC3 : List Overlay :=
  [⟨"a", ⟨50, 50⟩, ⟨30, 20⟩, 45, 3 / 2, some "IMGA"⟩,
   ⟨"b", ⟨25, 75⟩, ⟨10, 10⟩, 90, 1, some "IMGB"⟩]

/-- C3: a record holding `ovsC3`. -/
def mdC3 : ModelData := ⟨"base", "m", some "Wood", some "\x7b\x7d", some ovsC3⟩

/-- C4: a stored record referencing three overlay blobs. -/
def metaC4 : Metadata :=
  ⟨"base", "m", "Wood", "\x7b\x7d", "t0", "t0", 2, ["ka", "kb", "kc"],
    [⟨"a", ⟨10, 10⟩, ⟨5, 5⟩, 0, 1⟩, ⟨"b", ⟨20, 20⟩, ⟨6, 6⟩, 0, 1⟩,
     ⟨"c", ⟨30, 30⟩, ⟨7, 7⟩, 0, 1⟩]⟩

/-- C4: a store holding `metaC4` where the blob of the middle overlay has
been externally deleted. -/
def storeC4 : Store :=
  ⟨fun k => if k = "m" then some metaC4 else none,
   fun k => if k = "ka" then some "A" else if k = "kc" then some "C" else none⟩

/-- C5: an empty store. -/
def storeC5 : Store := ⟨fun _ => none, fun _ => none⟩

/-- C5: an imported record that saves successfully. -/
def mdC5a : ModelData := ⟨"base", "a", some "Wood", some "\x7b\x7d", none⟩

/-- C5: an imported record whose save fails with `QuotaExceededError`. -/
def mdC5b : ModelData := ⟨"base", "b", some "Wood", some "\x7b\x7d", none⟩

/-- C6: the spec's concrete overlay: position (50,50), size (30,20),
rotation 45. -/
def ovC6 : CompOverlay := ⟨"decal", ⟨50, 50⟩, ⟨30, 20⟩, 45, some "im"⟩

/-- C8: an editor state with one overlay and nothing selected (`Idle`). -/
def stC8 : EditorState := ⟨[⟨1, "o", ⟨50, 50⟩, ⟨30, 30⟩, 0⟩], none, false, ⟨0, 0⟩⟩

/-- C9: an empty store. -/
def storeC9 : Store := ⟨fun _ => none, fun _ => none⟩

/-- C9: two overlays, the first without image data, the second with. -/
def mdC9 : ModelData :=
  ⟨"base", "n", some "Wood", some "\x7b\x7d",
    some [⟨"first", ⟨10, 10⟩, ⟨5, 5⟩, 0, 1, none⟩,
          ⟨"second", ⟨90, 90⟩, ⟨20, 20⟩, 7, 2, some "IMG1"⟩]⟩

/-- C10: an empty store. -/
def storeC10 : Store := ⟨fun _ => none, fun _ => none⟩

/-- C10: the first save's two image-carrying overlays. -/
def ovsC10a : List Overlay :=
  [⟨"a0", ⟨50, 50⟩, ⟨30, 20⟩, 0, 1, some "A0"⟩,
   ⟨"a1", ⟨25, 25⟩, ⟨10, 10⟩, 0, 1, some "A1"⟩]

/-- C10: the re-save's single image-carrying overlay. -/
def ovsC10b : List Overlay := [⟨"c0", ⟨75, 75⟩, ⟨20, 20⟩, 0, 1, some "C0"⟩]

/-- C10: the first save's payload. -/
def mdC10a : ModelData := ⟨"base", "m", some "Wood", some "\x7b\x7d", some ovsC10a⟩

/-- C10: the re-save's payload. -/
def mdC10b : ModelData := ⟨"base", "m", some "Wood", some "\x7b\x7d", some ovsC10b⟩

/-- The decimal digit list of `n`, most significant first; equals core
`Nat.toDigits 10 n` (proved below). -/
def natDigits (n : Nat) : List Char :=
  if n < 10 then [Nat.digitChar n]
  else natDigits (n / 10) ++ [Nat.digitChar (n % 10)]
decreasing_by exact Nat.div_lt_self (by omega) (by omega)

end RenderDeck

namespace RenderDeck

theorem natDigits_lt {n : Nat} (h : n < 10) : natDigits n = [Nat.digitChar n] := by
  rw [natDigits]
  simp [h]

theorem natDigits_ge {n : Nat} (h : ¬n < 10) :
    natDigits n = natDigits (n / 10) ++ [Nat.digitChar (n % 10)] := by
  rw [natDigits]
  simp [h]

theorem natDigits_ne_nil (n : Nat) : natDigits n ≠ [] := by
  by_cases h : n < 10
  · rw [natDigits_lt h]; simp
  · rw [natDigits_ge h]; simp

theorem toDigitsCore_eq (fuel : Nat) :
    ∀ (n : Nat) (ds : List Char), n < fuel →
      Nat.toDigitsCore 10 fuel n ds = natDigits n ++ ds := by
  induction fuel with
  | zero => intro n ds h; omega
  | succ fuel ih =>
    intro n ds h
    show (if n / 10 = 0 then Nat.digitChar (n % 10) :: ds
          else Nat.toDigitsCore 10 fuel (n / 10) (Nat.digitChar (n % 10) :: ds)) =
        natDigits n ++ ds
    by_cases h10 : n < 10
    · have hdiv : n / 10 = 0 := by omega
      have hmod : n % 10 = n := by omega
      rw [natDigits_lt h10]
      simp [hdiv, hmod]
    · have hdiv : n / 10 ≠ 0 := by omega
      have hlt : n / 10 < fuel := by omega
      rw [if_neg hdiv, ih (n / 10) (Nat.digitChar (n % 10) :: ds) hlt, natDigits_ge h10]
      simp

theorem repr_eq_natDigits (n : Nat) : Nat.repr n = (natDigits n).asString := by
  show (Nat.toDigits 10 n).asString = (natDigits n).asString
  unfold Nat.toDigits
  rw [toDigitsCore_eq (n + 1) n [] (Nat.lt_succ_self n)]
  simp

theorem digitChar_inj {a b : Nat} (ha : a < 10) (hb : b < 10)
    (h : Nat.digitChar a = Nat.digitChar b) : a = b := by
  interval_cases a <;> interval_cases b <;> first | rfl | (exfalso; revert h; decide)

theorem natDigits_inj : ∀ m n : Nat, natDigits m = natDigits n → m = n := by
  intro m
  induction m using Nat.strong_induction_on with
  | _ m ih =>
    intro n h
    by_cases hm : m < 10 <;> by_cases hn : n < 10
    · rw [natDigits_lt hm, natDigits_lt hn] at h
      exact digitChar_inj hm hn (List.cons.injEq .. ▸ h).1
    · rw [natDigits_lt hm, natDigits_ge hn] at h
      have := congrArg List.length h
      have hne := natDigits_ne_nil (n / 10)
      have : 1 = (natDigits (n / 10)).length + 1 := by simpa using this
      have : (natDigits (n / 10)).length = 0 := by omega
      exact absurd (List.length_eq_zero.mp this) hne
    · rw [natDigits_ge hm, natDigits_lt hn] at h
      have := congrArg List.length h
      have hne := natDigits_ne_nil (m / 10)
      have : (natDigits (m / 10)).length + 1 = 1 := by simpa using this
      have : (natDigits (m / 10)).length = 0 := by omega
      exact absurd (List.length_eq_zero.mp this) hne
    · rw [natDigits_ge hm, natDigits_ge hn] at h
      have hparts := List.append_inj' h (by simp)
      have hdiv : m / 10 = n / 10 :=
        ih (m / 10) (Nat.div_lt_self (by omega) (by omega)) (n / 10) hparts.1
      have hmod : m % 10 = n % 10 :=
        digitChar_inj (Nat.mod_lt m (by omega)) (Nat.mod_lt n (by omega))
          (List.cons.injEq .. ▸ hparts.2).1
      omega

theorem natRepr_inj {m n : Nat} (h : Nat.repr m = Nat.repr n) : m = n := by
  rw [repr_eq_natDigits, repr_eq_natDigits] at h
  refine natDigits_inj m n ?_
  simp only [List.asString] at h
  exact congrArg String.data h

theorem overlayKey_inj (name : String) {i j : Nat}
    (h : overlayKey name i = overlayKey name j) : i = j := by
  unfold overlayKey at h
  have hd := congrArg String.data h
  simp only [String.data_append, List.append_assoc] at hd
  have : (Nat.repr i).data = (Nat.repr j).data :=
    List.append_cancel_left (List.append_cancel_left (List.append_cancel_left hd))
  exact natRepr_inj (String.ext this)

/-! ### Behaviour of the blob-writing loop of `saveCustomModel` -/

theorem saveBlobs_models (fails : Nat → Bool) (name : String) :
    ∀ (ovs : List Overlay) (i c : Nat) (s : Store) (keys : List String),
      (resultStore (saveBlobs fails name ovs i c s keys)).models = s.models := by
  intro ovs
  induction ovs with
  | nil => intro i c s keys; rfl
  | cons o rest ih =>
    intro i c s keys
    cases ho : o.imageData with
    | some d =>
      by_cases hf : fails c
      · simp [saveBlobs, ho, hf, resultStore]
      · simp only [saveBlobs, ho, hf, if_false, Bool.false_eq_true]
        rw [ih]
        rfl
    | none =>
      simp only [saveBlobs, ho]
      exact ih (i + 1) c s keys

theorem saveBlobs_spec (name : String) :
    ∀ (ovs : List Overlay) (i c : Nat) (s : Store) (keys : List String),
      ∃ (s1 : Store) (c1 : Nat),
        saveBlobs (fun _ => false) name ovs i c s keys =
          Except.ok (s1, keys ++ specKeys name i ovs, c1) ∧
        s1.models = s.models ∧
        (∀ kk : String, (∀ j, j < ovs.length → kk ≠ overlayKey name (i + j)) →
          s1.blobs kk = s.blobs kk) ∧
        (∀ (j : Nat) (hj : j < ovs.length), (ovs.get ⟨j, hj⟩).imageData.isSome →
          s1.blobs (overlayKey name (i + j)) = (ovs.get ⟨j, hj⟩).imageData) := by
  intro ovs
  induction ovs with
  | nil =>
    intro i c s keys
    refine ⟨s, c, by simp [saveBlobs, specKeys], rfl, fun kk _ => rfl, ?_⟩
    intro j hj
    exact absurd hj (by simp)
  | cons o rest ih =>
    intro i c s keys
    cases ho : o.imageData with
    | some d =>
      obtain ⟨s1, c1, h1, h2, h3, h4⟩ :=
        ih (i + 1) (c + 1) (putBlob s (overlayKey name i) (dataURLToBlob d))
          (keys ++ [overlayKey name i])
      refine ⟨s1, c1, ?_, ?_, ?_, ?_⟩
      · rw [show saveBlobs (fun _ => false) name (o :: rest) i c s keys =
            saveBlobs (fun _ => false) name rest (i + 1) (c + 1)
              (putBlob s (overlayKey name i) (dataURLToBlob d))
              (keys ++ [overlayKey name i]) from by simp [saveBlobs, ho], h1]
        simp [specKeys, ho]
      · rw [h2]; rfl
      · intro kk hkk
        have hne0 : kk ≠ overlayKey name i := by
          have := hkk 0 (by simp)
          simpa using this
        rw [h3 kk ?_]
        · show (if kk = overlayKey name i then some (dataURLToBlob d)
                else s.blobs kk) = s.blobs kk
          rw [if_neg hne0]
        · intro j hj
          have := hkk (j + 1) (by simpa using Nat.succ_lt_succ hj)
          simpa [Nat.add_comm, Nat.add_assoc, Nat.add_left_comm] using this
      · intro j hj hsome
        cases j with
        | zero =>
          have hfr : s1.blobs (overlayKey name (i + 0)) =
              (putBlob s (overlayKey name i) (dataURLToBlob d)).blobs
                (overlayKey name (i + 0)) := by
            refine h3 (overlayKey name (i + 0)) ?_
            intro j' hj' heq
            have := overlayKey_inj name heq
            omega
          rw [hfr]
          show (if overlayKey name (i + 0) = overlayKey name i
                then some (dataURLToBlob d) else s.blobs _) = _
          rw [if_pos (by simp)]
          simp [dataURLToBlob, ho, List.get]
        | succ j' =>
          have hj2 : j' < rest.length := by simpa using Nat.lt_of_succ_lt_succ hj
          have := h4 j' hj2 (by simpa [List.get] using hsome)
          have harr : i + (j' + 1) = i + 1 + j' := by omega
          rw [harr, this]
          simp [List.get]
    | none =>
      obtain ⟨s1, c1, h1, h2, h3, h4⟩ := ih (i + 1) c s keys
      refine ⟨s1, c1, ?_, h2, ?_, ?_⟩
      · rw [show saveBlobs (fun _ => false) name (o :: rest) i c s keys =
            saveBlobs (fun _ => false) name rest (i + 1) c s keys from by
              simp [saveBlobs, ho], h1]
        simp [specKeys, ho]
      · intro kk hkk
        refine h3 kk ?_
        intro j hj
        have := hkk (j + 1) (by simpa using Nat.succ_lt_succ hj)
        simpa [Nat.add_comm, Nat.add_assoc, Nat.add_left_comm] using this
      · intro j hj hsome
        cases j with
        | zero =>
          exfalso
          have : (o :: rest).get ⟨0, hj⟩ = o := rfl
          rw [this, ho] at hsome
          simp at hsome
        | succ j' =>
          have hj2 : j' < rest.length := by simpa using Nat.lt_of_succ_lt_succ hj
          have := h4 j' hj2 (by simpa [List.get] using hsome)
          have harr : i + (j' + 1) = i + 1 + j' := by omega
          rw [harr, this]
          simp [List.get]

theorem specKeys_all (name : String) :
    ∀ (ovs : List Overlay) (i : Nat), (∀ o ∈ ovs, o.imageData.isSome) →
      specKeys name i ovs = (List.range ovs.length).map (fun j => overlayKey name (i + j)) := by
  intro ovs
  induction ovs with
  | nil => intro i _; simp [specKeys]
  | cons o rest ih =>
    intro i h
    obtain ⟨d, hd⟩ := Option.isSome_iff_exists.mp (h o (by simp))
    rw [show specKeys name i (o :: rest) = overlayKey name i :: specKeys name (i + 1) rest from by
          simp [specKeys, hd],
        ih (i + 1) (fun o ho => h o (by simp [ho]))]
    simp only [List.length_cons, List.range_succ_eq_map, List.map_cons, List.map_map]
    refine congrArg₂ _ (by simp) ?_
    refine List.map_congr_left ?_
    intro a _
    simp only [Function.comp_apply]
    exact congrArg (overlayKey name) (by omega)

/-- The success path of `saveCustomModel` with no quota failures: returns
`true`, writes the metadata document (overlay keys exactly those of
image-carrying overlays, transform metadata for every overlay), touches no
other metadata key, and touches blobs only at this record's keys, where an
image-carrying overlay's bytes are stored. -/
theorem saveCustomModel_ok (now : String) (s : Store) (name : String) (md : ModelData) :
    (saveCustomModel (fun _ => false) now s name md).2 = true ∧
    ∃ meta : Metadata,
      ((saveCustomModel (fun _ => false) now s name md).1).models name = some meta ∧
      meta.overlayKeys = specKeys name 0 (md.overlayImages.getD []) ∧
      meta.overlayMetadata = (md.overlayImages.getD []).map toMeta ∧
      (∀ k2, k2 ≠ name →
        ((saveCustomModel (fun _ => false) now s name md).1).models k2 = s.models k2) ∧
      (∀ kk : String, (∀ j, j < (md.overlayImages.getD []).length → kk ≠ overlayKey name j) →
        ((saveCustomModel (fun _ => false) now s name md).1).blobs kk = s.blobs kk) ∧
      (∀ (j : Nat) (hj : j < (md.overlayImages.getD []).length),
        ((md.overlayImages.getD []).get ⟨j, hj⟩).imageData.isSome →
        ((saveCustomModel (fun _ => false) now s name md).1).blobs (overlayKey name j) =
          ((md.overlayImages.getD []).get ⟨j, hj⟩).imageData) := by
  obtain ⟨s1, c1, h1, h2, h3, h4⟩ := saveBlobs_spec name (md.overlayImages.getD []) 0 0 s []
  have hrun : saveCustomModel (fun _ => false) now s name md =
      (putModel s1 name
        { basedOn := md.basedOn
          customName := md.customName
          materialPreset := md.materialPreset.getD "Wood"
          materialProperties := md.materialProperties.getD "\x7b\x7d"
          createdDate := now
          lastModified := now
          version := 2
          overlayKeys := [] ++ specKeys name 0 (md.overlayImages.getD [])
          overlayMetadata := (md.overlayImages.getD []).map toMeta }, true) := by
    rw [saveCustomModel, h1]
    rfl
  rw [hrun]
  refine ⟨rfl,
    { basedOn := md.basedOn
      customName := md.customName
      materialPreset := md.materialPreset.getD "Wood"
      materialProperties := md.materialProperties.getD "\x7b\x7d"
      createdDate := now
      lastModified := now
      version := 2
      overlayKeys := [] ++ specKeys name 0 (md.overlayImages.getD [])
      overlayMetadata := (md.overlayImages.getD []).map toMeta }, ?_, by simp, rfl, ?_, ?_, ?_⟩
  · show (if name = name then some _ else s1.models name) = _
    rw [if_pos rfl]
  · intro k2 hk2
    show (if k2 = name then _ else s1.models k2) = s.models k2
    rw [if_neg hk2]
    exact congrFun h2 k2
  · intro kk hkk
    exact h3 kk (by simpa using hkk)
  · intro j hj hsome
    have := h4 j hj hsome
    simpa using this

theorem saveCustomModel_fail_models (fails : Nat → Bool) (now : String) (s : Store)
    (name : String) (md : ModelData)
    (h : (saveCustomModel fails now s name md).2 = false) :
    ((saveCustomModel fails now s name md).1).models = s.models := by
  cases e : saveBlobs fails name (md.overlayImages.getD []) 0 0 s [] with
  | error s1 =>
    have hm := saveBlobs_models fails name (md.overlayImages.getD []) 0 0 s []
    rw [e] at hm
    simp only [saveCustomModel, e]
    exact hm
  | ok t =>
    obtain ⟨s1, keys, c⟩ := t
    have hm := saveBlobs_models fails name (md.overlayImages.getD []) 0 0 s []
    rw [e] at hm
    by_cases hf : fails c
    · simp only [saveCustomModel, e, hf, if_true]
      exact hm
    · exfalso
      rw [saveCustomModel, e] at h
      simp [hf] at h

/-! ### Behaviour of the blob-reading loop of `loadCustomModel` -/

theorem loadOverlays_eq_filterMap (s : Store) :
    ∀ (ks : List String) (ms : List OverlayMeta),
      loadOverlays s ks ms =
        (ks.zip ms).filterMap (fun p => (s.blobs p.1).map (fun b => mkLoadedOverlay p.2 b)) := by
  intro ks
  induction ks with
  | nil => intro ms; simp [loadOverlays]
  | cons k ks ih =>
    intro ms
    cases ms with
    | nil => simp [loadOverlays]
    | cons m ms =>
      cases hb : s.blobs k with
      | some b => simp [loadOverlays, hb, ih]
      | none => simp [loadOverlays, hb, ih]

theorem loadOverlays_transforms (s : Store) :
    ∀ (ks : List String) (ms : List OverlayMeta), ks.length = ms.length →
      (∀ k ∈ ks, (s.blobs k).isSome) →
      (loadOverlays s ks ms).map loadedTransform = ms.map metaTransform := by
  intro ks
  induction ks with
  | nil =>
    intro ms hlen _
    cases ms with
    | nil => rfl
    | cons m ms => simp at hlen
  | cons k ks ih =>
    intro ms hlen hsome
    cases ms with
    | nil => simp at hlen
    | cons m ms =>
      obtain ⟨b, hb⟩ := Option.isSome_iff_exists.mp (hsome k (by simp))
      rw [show loadOverlays s (k :: ks) (m :: ms) =
            mkLoadedOverlay m b :: loadOverlays s ks ms from by simp [loadOverlays, hb]]
      rw [List.map_cons, List.map_cons,
        ih ms (by simpa using hlen) (fun k2 hk2 => hsome k2 (by simp [hk2]))]
      rfl

theorem loadOverlays_length_of_missing (s : Store) :
    ∀ (ks : List String) (ms : List OverlayMeta), ms.length = ks.length →
      (loadOverlays s ks ms).length =
        (ks.filter (fun kk => (s.blobs kk).isSome)).length := by
  intro ks
  induction ks with
  | nil =>
    intro ms hlen
    cases ms with
    | nil => rfl
    | cons m ms => simp at hlen
  | cons k ks ih =>
    intro ms hlen
    cases ms with
    | nil => simp at hlen
    | cons m ms =>
      cases hb : s.blobs k with
      | some b =>
        rw [show loadOverlays s (k :: ks) (m :: ms) =
              mkLoadedOverlay m b :: loadOverlays s ks ms from by simp [loadOverlays, hb]]
        simp [List.filter, hb, ih ms (by simpa using hlen)]
      | none =>
        rw [show loadOverlays s (k :: ks) (m :: ms) = loadOverlays s ks ms from by
              simp [loadOverlays, hb]]
        simp [List.filter, hb, ih ms (by simpa using hlen)]

theorem filter_isSome_add_isNone (s : Store) :
    ∀ ks : List String,
      (ks.filter (fun kk => (s.blobs kk).isSome)).length +
        (ks.filter (fun kk => (s.blobs kk).isNone)).length = ks.length := by
  intro ks
  induction ks with
  | nil => rfl
  | cons k ks ih =>
    cases hb : s.blobs k with
    | some b => simp [List.filter, hb]; omega
    | none => simp [List.filter, hb]; omega

/-! ### Behaviour of the UVEditor pointer-down scan -/

theorem hitScan_eq_reverse_find (ptr : Pos) :
    ∀ l : List EditorOverlay, hitScan ptr l = l.reverse.find? (hitTest ptr) := by
  intro l
  induction l with
  | nil => rfl
  | cons o rest ih =>
    rw [show hitScan ptr (o :: rest) =
          (match hitScan ptr rest with
           | some r => some r
           | none => if hitTest ptr o then some o else none) from rfl,
        List.reverse_cons, List.find?_append, ← ih]
    cases h : hitScan ptr rest with
    | some r => simp [Option.or]
    | none =>
      cases hpo : hitTest ptr o <;> simp [List.find?, hpo, Option.or]

/-! ### Behaviour of the compositor draw loop -/

theorem drawLoop_eq_filter (ovs : List CompOverlay) :
    drawLoop (loadedImages ovs) =
      (ovs.filter (fun o => o.img.isSome)).map
        (fun o => (o.img.getD "", overlayDrawOp COMPOSITE_SIZE o)) := by
  induction ovs with
  | nil => rfl
  | cons o rest ih =>
    cases h : o.img with
    | some im => simp [loadedImages, drawLoop, List.filter, h] at ih ⊢; exact ih
    | none => simp [loadedImages, drawLoop, List.filter, h] at ih ⊢; exact ih

/-! ### Accounting of the import loop -/

theorem importLoop_counts (confirmFn : String → Bool) (failsFor : String → Nat → Bool)
    (now : String) :
    ∀ (entries : List (String × ModelData)) (s : Store) (imported skipped : Nat)
      (firstName : Option String),
      (importLoop confirmFn failsFor now entries s imported skipped firstName).2.1 +
        (importLoop confirmFn failsFor now entries s imported skipped
          firstName).2.2.1 ≤ imported + skipped + entries.length := by
  intro entries
  induction entries with
  | nil => intro s imported skipped firstName; simp [importLoop]
  | cons e rest ih =>
    intro s imported skipped firstName
    obtain ⟨name, modelData⟩ := e
    have hunf : importLoop confirmFn failsFor now ((name, modelData) :: rest)
        s imported skipped firstName =
        if (loadCustomModel s name).isSome && !(confirmFn name) then
          (importLoop confirmFn failsFor now rest s imported (skipped + 1) firstName)
        else if (saveCustomModel (failsFor name) now
            (if (loadCustomModel s name).isSome then (deleteCustomModel s name).1 else s)
            name modelData).2 = true then
          (importLoop confirmFn failsFor now rest
            (saveCustomModel (failsFor name) now
              (if (loadCustomModel s name).isSome then (deleteCustomModel s name).1 else s)
              name modelData).1 (imported + 1) skipped
            (match firstName with | none => some name | some f => some f))
        else
          (importLoop confirmFn failsFor now rest
            (saveCustomModel (failsFor name) now
              (if (loadCustomModel s name).isSome then (deleteCustomModel s name).1 else s)
              name modelData).1 imported skipped firstName) := rfl
    rw [hunf, List.length_cons]
    clear hunf
    by_cases hc : ((loadCustomModel s name).isSome && !(confirmFn name)) = true
    · rw [if_pos hc]
      have := ih s imported (skipped + 1) firstName
      omega
    · rw [if_neg hc]
      by_cases hs : (saveCustomModel (failsFor name) now
          (if (loadCustomModel s name).isSome then (deleteCustomModel s name).1 else s)
          name modelData).2 = true
      · rw [if_pos hs]
        have := ih (saveCustomModel (failsFor name) now
          (if (loadCustomModel s name).isSome then (deleteCustomModel s name).1 else s)
          name modelData).1 (imported + 1) skipped
          (match firstName with | none => some name | some f => some f)
        omega
      · rw [if_neg hs]
        have := ih (saveCustomModel (failsFor name) now
          (if (loadCustomModel s name).isSome then (deleteCustomModel s name).1 else s)
          name modelData).1 imported skipped firstName
        omega

/-! ### The claims -/

/-- C1, counterexample: a `saveCustomModel` over an existing record "m"
writes its blobs before the metadata; with a quota failure on the metadata
write (put number 1, after the blob put succeeded), the prior record's blob
under `overlay:m:0` has already been overwritten from "A" to "B", so a
subsequent `loadCustomModel "m"` does NOT return the prior record exactly:
it returns the prior transforms with the new image bytes "B". -/
theorem c1_counterexample :
    (saveCustomModel (fun c => c == 1) "t1" storeC1 "m" mdC1).2 = false ∧
    loadCustomModel (saveCustomModel (fun c => c == 1) "t1" storeC1 "m" mdC1).1 "m" ≠
      loadCustomModel storeC1 "m" ∧
    (loadCustomModel (saveCustomModel (fun c => c == 1) "t1" storeC1 "m" mdC1).1 "m").map
      (fun r => r.overlayImages.map (fun l => l.imageData)) = some ["B"] ∧
    (loadCustomModel storeC1 "m").map
      (fun r => r.overlayImages.map (fun l => l.imageData)) = some ["A"] := by
  decide

/-- C1, amended: on any save that fails with `QuotaExceededError` (the only
failure the embedded `saveCustomModel` reports), the `models` namespace is
left untouched — the metadata write is attempted last, so the prior
metadata record for the name (or its absence) is unchanged and no dangling
metadata update occurs; the image blobs written before the failure, however,
may have overwritten the prior record's blobs (see the counterexample). -/
theorem c1_failed_save_leaves_metadata (fails : Nat → Bool) (now : String)
    (s : Store) (name : String) (md : ModelData)
    (h : (saveCustomModel fails now s name md).2 = false) :
    ((saveCustomModel fails now s name md).1).models = s.models :=
  saveCustomModel_fail_models fails now s name md h

/-- C1, witness for the amended theorem: a save in which the very first
`put` fails with `QuotaExceededError` leaves the `models` namespace of the
prior store unchanged. -/
theorem c1_failed_save_leaves_metadata_witness :
    ((saveCustomModel (fun _ => true) "t1" storeC1 "m" mdC1).1).models = storeC1.models :=
  c1_failed_save_leaves_metadata (fun _ => true) "t1" storeC1 "m" mdC1 (by decide)

/-- C2, counterexample: a numeric-field edit goes through `_setSelected`,
which maps the typed slider-space value `v` to `(v+1)/2*100` and stores it
WITHOUT clamping: typing 5 into the position-x field stores 300, outside
`[0,100]`. -/
theorem c2_counterexample :
    (setSelected TransformProp.posX 5 imgC2).position.x = 300 ∧
    ¬(setSelected TransformProp.posX 5 imgC2).position.x ≤ 100 := by
  constructor <;> norm_num [setSelected, imgC2]

/-- C2, amended: the pointer-drag path (`_onMouseMove`) always stores a
position clamped into `[0,100]` in both components, but a direct numeric
edit (`_setSelected`) bypasses the clamp and stores `(v+1)/2*100` verbatim,
which is outside `[0,100]` whenever `v` is outside `[-1,1]`. -/
theorem c2_amended :
    (∀ ptr off : Pos,
      0 ≤ (dragPosition ptr off).x ∧ (dragPosition ptr off).x ≤ 100 ∧
      0 ≤ (dragPosition ptr off).y ∧ (dragPosition ptr off).y ≤ 100) ∧
    (∀ (img : EditorOverlay) (v : ℚ),
      (setSelected TransformProp.posX v img).position.x = (v + 1) / 2 * 100 ∧
      (setSelected TransformProp.posY v img).position.y = (v + 1) / 2 * 100) := by
  constructor
  · intro ptr off
    refine ⟨le_max_left 0 _, ?_, le_max_left 0 _, ?_⟩ <;>
      exact max_le (by norm_num) (min_le_left 100 _)
  · intro img v
    exact ⟨rfl, rfl⟩

/-- C6: compositing the overlay `position=(50,50)`, `size=(30,20)`,
`rotation=45` onto the 2048-square canvas translates to pixel (1024,1024),
draws with pre-rotation extents 614.4 × 409.6 at `(-w/2, -h/2, w, h)`, and
rotates by the rotation converted to radians (`45·π/180`). -/
theorem c6_draw_params :
    overlayDrawOp COMPOSITE_SIZE ovC6 =
      ⟨1024, 1024, 614.4, 409.6, -(614.4 / 2), -(409.6 / 2), 45 / 180⟩ ∧
    (614.4 : ℚ) = 3072 / 5 ∧ (409.6 : ℚ) = 2048 / 5 ∧
    ((overlayDrawOp COMPOSITE_SIZE ovC6).rotPi : ℝ) * Real.pi = 45 * Real.pi / 180 := by
  refine ⟨by norm_num [overlayDrawOp, ovC6, COMPOSITE_SIZE, DrawOp.mk.injEq],
    by norm_num, by norm_num, ?_⟩
  rw [show (overlayDrawOp COMPOSITE_SIZE ovC6).rotPi = 45 / 180 from rfl]
  push_cast
  ring

/-- C7: the compositor draws exactly the overlays whose image decoded
(`img.isSome`), in list order — a failed decode is skipped and never aborts
the composite — and an absent base texture (or one without an image) is
replaced by the fixed flat colour `#ffffff` while a present base image is
drawn. -/
theorem c7_composite_failure_policy (bt : Option BaseTexture)
    (ovs : List CompOverlay) (im : Image) :
    (createCompositeTexture bt (some ovs)).draws =
      (ovs.filter (fun o => o.img.isSome)).map
        (fun o => (o.img.getD "", overlayDrawOp COMPOSITE_SIZE o)) ∧
    (createCompositeTexture bt (some ovs)).draws.length =
      (ovs.filter (fun o => o.img.isSome)).length ∧
    (createCompositeTexture none (some ovs)).base = BaseOp.fillColor "#ffffff" ∧
    (createCompositeTexture (some ⟨none⟩) (some ovs)).base = BaseOp.fillColor "#ffffff" ∧
    (createCompositeTexture (some ⟨some im⟩) (some ovs)).base = BaseOp.drawImage im := by
  refine ⟨drawLoop_eq_filter ovs, ?_, rfl, rfl, rfl⟩
  rw [show (createCompositeTexture bt (some ovs)).draws = drawLoop (loadedImages ovs)
        from rfl,
      drawLoop_eq_filter]
  rw [List.length_map]

/-- C8, counterexample: from `Idle` (no selection, not dragging), a single
pointer-down inside an overlay's box immediately sets `isDragging` — the
code does not require the overlay to be the already-selected one, so
dragging does NOT begin only on a pointer-down inside the already-selected
overlay's box. -/
theorem c8_counterexample :
    stC8.selectedImageId = none ∧
    stC8.isDragging = false ∧
    (onMouseDown stC8 ⟨50, 50⟩).isDragging = true ∧
    (onMouseDown stC8 ⟨50, 50⟩).selectedImageId = some 1 := by
  refine ⟨rfl, rfl, ?_⟩
  norm_num [onMouseDown, stC8, hitScan, hitTest]

/-- C8, amended: a pointer-down selects the topmost overlay — the last in
list order, i.e. the first hit of a reverse scan — whose axis-aligned box
in percent space (center ± half size, rotation ignored) contains the
pointer, and in the same event starts dragging it with the captured offset;
a pointer-down that hits nothing changes nothing (from `Idle` the
controller stays `Idle` with no selection); pointer-up and pointer-leave
end dragging. -/
theorem c8_amended (st : EditorState) (ptr : Pos) :
    onMouseDown st ptr =
      (match st.overlayImages.reverse.find? (hitTest ptr) with
       | some img =>
         { st with
           selectedImageId := some img.id
           isDragging := true
           dragOffset := ⟨ptr.x - img.position.x, ptr.y - img.position.y⟩ }
       | none => st) ∧
    (onMouseUp st).isDragging = false ∧
    (onMouseLeave st).isDragging = false := by
  refine ⟨?_, rfl, rfl⟩
  rw [show onMouseDown st ptr =
        (match hitScan ptr st.overlayImages with
         | some img =>
           { st with
             selectedImageId := some img.id
             isDragging := true
             dragOffset := ⟨ptr.x - img.position.x, ptr.y - img.position.y⟩ }
         | none => st) from rfl,
      hitScan_eq_reverse_find]

/-- C4: for a stored record referencing 3 overlay blobs of which exactly one
is missing from the blob store, `loadCustomModel` returns a record (it does
not fail) with exactly 2 overlays — precisely the key/metadata pairs whose
blob exists, in the original order. -/
theorem c4_load_skips_missing_blob (s : Store) (name : String) (meta : Metadata)
    (hm : s.models name = some meta)
    (hk : meta.overlayKeys.length = 3)
    (hme : meta.overlayMetadata.length = 3)
    (hmiss : (meta.overlayKeys.filter (fun kk => (s.blobs kk).isNone)).length = 1) :
    ∃ rec : LoadedModel,
      loadCustomModel s name = some rec ∧
      rec.overlayImages.length = 2 ∧
      rec.overlayImages =
        (meta.overlayKeys.zip meta.overlayMetadata).filterMap
          (fun p => (s.blobs p.1).map (fun b => mkLoadedOverlay p.2 b)) := by
  have hload : loadCustomModel s name = some
      { basedOn := meta.basedOn
        customName := meta.customName
        materialPreset := meta.materialPreset
        materialProperties := meta.materialProperties
        createdDate := meta.createdDate
        lastModified := meta.lastModified
        overlayImages := loadOverlays s meta.overlayKeys meta.overlayMetadata
        version := meta.version } := by
    rw [loadCustomModel, hm]
  refine ⟨_, hload, ?_, loadOverlays_eq_filterMap s meta.overlayKeys meta.overlayMetadata⟩
  have hlen := loadOverlays_length_of_missing s meta.overlayKeys meta.overlayMetadata
    (by omega)
  have hsum := filter_isSome_add_isNone s meta.overlayKeys
  show (loadOverlays s meta.overlayKeys meta.overlayMetadata).length = 2
  omega

/-- C5, counterexample: importing a two-record document where the second
record's save fails with `QuotaExceededError` returns
`{success: true, name: "a", count: 1, skipped: 0}` — the failed record is
counted neither as imported nor as skipped, no failed count exists in the
result, and no per-failure reason is reported (`error` is absent), so the
summary does not contain counts of imported, skipped AND failed records
plus per-failure reasons. -/
theorem c5_counterexample :
    (importCustomModels (fun _ => false) (fun n _ => n == "b") "t" storeC5
        ⟨some [("a", mdC5a), ("b", mdC5b)]⟩).2 = ⟨true, some "a", 1, 0, none⟩ ∧
    (saveCustomModel ((fun (n : String) (_ : Nat) => n == "b") "b") "t"
        (saveCustomModel ((fun (n : String) (_ : Nat) => n == "b") "a") "t"
          storeC5 "a" mdC5a).1 "b" mdC5b).2 = false ∧
    (importCustomModels (fun _ => false) (fun n _ => n == "b") "t" storeC5
        ⟨some [("a", mdC5a), ("b", mdC5b)]⟩).2.count +
      (importCustomModels (fun _ => false) (fun n _ => n == "b") "t" storeC5
        ⟨some [("a", mdC5a), ("b", mdC5b)]⟩).2.skipped ≠
      [("a", mdC5a), ("b", mdC5b)].length := by
  decide

/-- C5, amended: `importCustomModels` never throws for a per-item failure
and returns a summary, but the summary only carries the imported and
skipped counts (plus the first imported name, and an error message when
nothing imported): `success` is exactly "some record imported", an `error`
string is present exactly on failure, and `count + skipped` can fall short
of the number of records in the document because records whose save failed
are counted nowhere; the overwrite decision is the blocking `confirm`
dialog (modelled as the `confirmFn` oracle), not an injected
`conflictPolicy`. -/
theorem c5_amended (confirmFn : String → Bool) (failsFor : String → Nat → Bool)
    (now : String) (s : Store) (entries : List (String × ModelData)) :
    ((importCustomModels confirmFn failsFor now s ⟨some entries⟩).2.success =
      ((importCustomModels confirmFn failsFor now s ⟨some entries⟩).2.count != 0)) ∧
    (importCustomModels confirmFn failsFor now s ⟨some entries⟩).2.count +
      (importCustomModels confirmFn failsFor now s ⟨some entries⟩).2.skipped ≤
      entries.length ∧
    (importCustomModels confirmFn failsFor now s ⟨some entries⟩).2.error.isSome =
      !(importCustomModels confirmFn failsFor now s ⟨some entries⟩).2.success := by
  have hloop := importLoop_counts confirmFn failsFor now entries s 0 0 none
  simp only [importCustomModels]
  by_cases h0 : 0 < (importLoop confirmFn failsFor now entries s 0 0 none).2.1
  · rw [if_pos h0]
    refine ⟨?_, ?_, rfl⟩
    · show true = ((importLoop confirmFn failsFor now entries s 0 0 none).2.1 != 0)
      rw [eq_comm, bne_iff_ne]
      omega
    · show (importLoop confirmFn failsFor now entries s 0 0 none).2.1 +
          (importLoop confirmFn failsFor now entries s 0 0 none).2.2.1 ≤ entries.length
      omega
  · rw [if_neg h0]
    exact ⟨rfl, by simp, rfl⟩

/-- C3: saving a record whose overlays all carry image data and loading it
back under the same name yields exactly as many overlays, in the original
order, with position, size and rotation equal to the input's (the embedding
is exact over `ℚ`, so equality holds outright, a fortiori within any
floating-point epsilon). -/
theorem c3_round_trip (s : Store) (name now : String) (md : ModelData)
    (ovs : List Overlay) (hov : md.overlayImages = some ovs)
    (himg : ∀ o ∈ ovs, o.imageData.isSome) :
    (saveCustomModel (fun _ => false) now s name md).2 = true ∧
    ∃ rec : LoadedModel,
      loadCustomModel (saveCustomModel (fun _ => false) now s name md).1 name = some rec ∧
      rec.overlayImages.length = ovs.length ∧
      rec.overlayImages.map loadedTransform = ovs.map overlayTransform := by
  obtain ⟨mb, mc, mp, mq, moi⟩ := md
  change moi = some ovs at hov
  subst hov
  obtain ⟨htrue, meta, hmodels, hkeys, hmeta, _, _, hvals⟩ :=
    saveCustomModel_ok now s name ⟨mb, mc, mp, mq, some ovs⟩
  simp only [Option.getD_some] at hkeys hmeta hvals
  rw [specKeys_all name ovs 0 himg] at hkeys
  have hlenk : meta.overlayKeys.length = ovs.length := by rw [hkeys]; simp
  have hlenm : meta.overlayMetadata.length = ovs.length := by rw [hmeta]; simp
  have hsome : ∀ k ∈ meta.overlayKeys,
      (((saveCustomModel (fun _ => false) now s name ⟨mb, mc, mp, mq, some ovs⟩).1).blobs
        k).isSome := by
    intro k hkmem
    rw [hkeys] at hkmem
    simp only [List.mem_map, List.mem_range] at hkmem
    obtain ⟨j, hj, hkeq⟩ := hkmem
    rw [← hkeq, Nat.zero_add, hvals j hj (himg _ (List.get_mem ovs j hj))]
    exact himg _ (List.get_mem ovs j hj)
  have htr := loadOverlays_transforms
    ((saveCustomModel (fun _ => false) now s name ⟨mb, mc, mp, mq, some ovs⟩).1)
    meta.overlayKeys meta.overlayMetadata (hlenk.trans hlenm.symm) hsome
  have hload : loadCustomModel
      (saveCustomModel (fun _ => false) now s name ⟨mb, mc, mp, mq, some ovs⟩).1 name =
      some
        { basedOn := meta.basedOn
          customName := meta.customName
          materialPreset := meta.materialPreset
          materialProperties := meta.materialProperties
          createdDate := meta.createdDate
          lastModified := meta.lastModified
          overlayImages := loadOverlays
            ((saveCustomModel (fun _ => false) now s name ⟨mb, mc, mp, mq, some ovs⟩).1)
            meta.overlayKeys meta.overlayMetadata
          version := meta.version } := by
    rw [loadCustomModel, hmodels]
  refine ⟨htrue, _, hload, ?_, ?_⟩
  · show (loadOverlays
      ((saveCustomModel (fun _ => false) now s name ⟨mb, mc, mp, mq, some ovs⟩).1)
      meta.overlayKeys meta.overlayMetadata).length = ovs.length
    have := congrArg List.length htr
    simpa [hlenm] using this
  · show (loadOverlays
      ((saveCustomModel (fun _ => false) now s name ⟨mb, mc, mp, mq, some ovs⟩).1)
      meta.overlayKeys meta.overlayMetadata).map loadedTransform = ovs.map overlayTransform
    rw [htr, hmeta, List.map_map]
    exact List.map_congr_left (fun o _ => rfl)

/-- C3, witness: the round trip at a concrete two-overlay record on an
empty store. -/
theorem c3_round_trip_witness :
    (saveCustomModel (fun _ => false) "t" storeC3 "m" mdC3).2 = true ∧
    ∃ rec : LoadedModel,
      loadCustomModel (saveCustomModel (fun _ => false) "t" storeC3 "m" mdC3).1 "m" =
        some rec ∧
      rec.overlayImages.length = ovsC3.length ∧
      rec.overlayImages.map loadedTransform = ovsC3.map overlayTransform :=
  c3_round_trip storeC3 "m" "t" mdC3 ovsC3 rfl (by decide)

/-- C4, witness: the concrete store `storeC4` holds a record with three
overlay keys of which exactly the middle blob is missing; the load returns
exactly the first and third overlays, in order. -/
theorem c4_load_skips_missing_blob_witness :
    ∃ rec : LoadedModel,
      loadCustomModel storeC4 "m" = some rec ∧
      rec.overlayImages.length = 2 ∧
      rec.overlayImages =
        (metaC4.overlayKeys.zip metaC4.overlayMetadata).filterMap
          (fun p => (storeC4.blobs p.1).map (fun b => mkLoadedOverlay p.2 b)) :=
  c4_load_skips_missing_blob storeC4 "m" metaC4 (by decide) (by decide) (by decide)
    (by decide)

/-- C9: `saveCustomModel` pushes a blob key `overlay:<name>:<i>` only for
overlays that carry image data (`specKeys`), while `overlayMetadata` keeps
an entry for every overlay; `loadCustomModel` pairs the i-th key with the
i-th metadata entry.  Consequently, for the concrete record `mdC9` — an
imageless overlay followed by an image-carrying one — the save writes only
`overlay:n:1`, and the load returns a single overlay carrying the FIRST
overlay's position/size/rotation with the SECOND overlay's image bytes. -/
theorem c9_blobkey_metadata_mispairing :
    (∀ (s : Store) (name now : String) (md : ModelData),
      ∃ meta : Metadata,
        ((saveCustomModel (fun _ => false) now s name md).1).models name = some meta ∧
        meta.overlayKeys = specKeys name 0 (md.overlayImages.getD []) ∧
        meta.overlayMetadata = (md.overlayImages.getD []).map toMeta) ∧
    (saveCustomModel (fun _ => false) "t" storeC9 "n" mdC9).2 = true ∧
    ((saveCustomModel (fun _ => false) "t" storeC9 "n" mdC9).1).blobs
      (overlayKey "n" 0) = none ∧
    ((saveCustomModel (fun _ => false) "t" storeC9 "n" mdC9).1).blobs
      (overlayKey "n" 1) = some "IMG1" ∧
    (loadCustomModel (saveCustomModel (fun _ => false) "t" storeC9 "n" mdC9).1 "n").map
      (fun r => r.overlayImages) =
      some [⟨"first", ⟨10, 10⟩, ⟨5, 5⟩, 0, 1, "IMG1"⟩] := by
  refine ⟨?_, by decide, by decide, by decide, by decide⟩
  intro s name now md
  obtain ⟨_, meta, hm, hk, hme, _, _, _⟩ := saveCustomModel_ok now s name md
  exact ⟨meta, hm, hk, hme⟩

/-- C10: re-saving a name with fewer image-carrying overlays never deletes
the earlier save's blobs: after saving `ovs1` and then `ovs2` with
`ovs2.length ≤ j < ovs1.length`, the blob store still holds the first
save's bytes under `overlay:<name>:<j>`, while the new metadata's
`overlayKeys` lists only the keys for indices below `ovs2.length` and does
not reference `overlay:<name>:<j>`. -/
theorem c10_resave_leaves_old_blobs (s : Store) (name now1 now2 : String)
    (md1 md2 : ModelData) (ovs1 ovs2 : List Overlay)
    (h1 : md1.overlayImages = some ovs1) (h2 : md2.overlayImages = some ovs2)
    (hi1 : ∀ o ∈ ovs1, o.imageData.isSome) (hi2 : ∀ o ∈ ovs2, o.imageData.isSome)
    (j : Nat) (hjk : ovs2.length ≤ j) (hjn : j < ovs1.length) :
    ((saveCustomModel (fun _ => false) now2
        (saveCustomModel (fun _ => false) now1 s name md1).1 name md2).1).blobs
      (overlayKey name j) = (ovs1.get ⟨j, hjn⟩).imageData ∧
    ∃ meta2 : Metadata,
      ((saveCustomModel (fun _ => false) now2
          (saveCustomModel (fun _ => false) now1 s name md1).1 name md2).1).models name =
        some meta2 ∧
      meta2.overlayKeys = (List.range ovs2.length).map (overlayKey name) ∧
      overlayKey name j ∉ meta2.overlayKeys := by
  obtain ⟨mb1, mc1, mp1, mq1, moi1⟩ := md1
  change moi1 = some ovs1 at h1
  subst h1
  obtain ⟨mb2, mc2, mp2, mq2, moi2⟩ := md2
  change moi2 = some ovs2 at h2
  subst h2
  obtain ⟨_, meta1, hm1, hk1, hme1, hfm1, hfb1, hv1⟩ :=
    saveCustomModel_ok now1 s name ⟨mb1, mc1, mp1, mq1, some ovs1⟩
  obtain ⟨_, meta2, hm2, hk2, hme2, hfm2, hfb2, hv2⟩ :=
    saveCustomModel_ok now2
      (saveCustomModel (fun _ => false) now1 s name ⟨mb1, mc1, mp1, mq1, some ovs1⟩).1
      name ⟨mb2, mc2, mp2, mq2, some ovs2⟩
  simp only [Option.getD_some] at hv1
  simp only [Option.getD_some] at hk2 hfb2
  have hkeys2 : meta2.overlayKeys = (List.range ovs2.length).map (overlayKey name) := by
    rw [hk2, specKeys_all name ovs2 0 hi2]
    refine List.map_congr_left ?_
    intro a _
    exact congrArg (overlayKey name) (Nat.zero_add a)
  constructor
  · have hfr := hfb2 (overlayKey name j) ?_
    · rw [hfr]
      exact hv1 j hjn (hi1 _ (List.get_mem ovs1 j hjn))
    · intro j' hj' heq
      have := overlayKey_inj name heq
      omega
  · refine ⟨meta2, hm2, hkeys2, ?_⟩
    rw [hkeys2]
    simp only [List.mem_map, List.mem_range, not_exists, not_and]
    intro x hx heq
    have := overlayKey_inj name heq
    omega

/-- C10, witness: saving two image-carrying overlays and then one leaves
the first save's second blob (`overlay:m:1` holding bytes "A1") in the
store, unreferenced by the new metadata. -/
theorem c10_resave_leaves_old_blobs_witness :
    ((saveCustomModel (fun _ => false) "t2"
        (saveCustomModel (fun _ => false) "t1" storeC10 "m" mdC10a).1 "m" mdC10b).1).blobs
      (overlayKey "m" 1) = some "A1" ∧
    ∃ meta2 : Metadata,
      ((saveCustomModel (fun _ => false) "t2"
          (saveCustomModel (fun _ => false) "t1" storeC10 "m" mdC10a).1 "m" mdC10b).1).models
        "m" = some meta2 ∧
      meta2.overlayKeys = (List.range ovsC10b.length).map (overlayKey "m") ∧
      overlayKey "m" 1 ∉ meta2.overlayKeys := by
  have h := c10_resave_leaves_old_blobs storeC10 "m" "t1" "t2" mdC10a mdC10b ovsC10a
    ovsC10b rfl rfl (by decide) (by decide) 1 (by decide) (by decide)
  exact h

end RenderDeck
